import Mathlib

/-!
Verification of the buffer-lifecycle layer of a multi-document editor
main window (MainWindow.cpp).

The state of the window is embedded shallowly: the tab/view controller's
ordered sequence of buffers together with the current index, the ordinal
counter used for naming fresh untitled buffers, a fresh-identity counter
standing in for pointer identity, and a flag recording whether the
"all buffers closed creates a new empty buffer" signal connection is
active (it is disconnected during the terminal window-close sequence).

All interactive dialogs (save prompts, save-as file chooser, reload
confirmation, create-file question, rename chooser) and the file system
(write success, on-disk content, existence, external-change detection)
are supplied by an environment of oracles, so every operation is a pure
function of the state and the environment.

Functions of MainWindow.cpp are translated directly from the source.
Operations of the buffer manager and the tabbed editor whose sources are
not part of this excerpt are modelled from the specification and carry a
doc comment saying so.
-/

namespace NotepadNext

/-- One open document: identity (standing in for pointer identity), display
name, associated file path (none for an untitled buffer), save-point flag
and in-memory content. -/
structure Buffer where
  id : Nat
  name : String
  filePath : Option String
  is_save_point : Bool
  content : String
deriving DecidableEq, Repr

/-- ScintillaBuffer isFile: whether the buffer is file-backed. -/
def Buffer.isFile (b : Buffer) : Bool :=
  b.filePath.isSome

/-- Reply to the three-way Save / Discard / Cancel prompt
(QMessageBox Save, Discard, Cancel). -/
inductive SaveReply where
  | save
  | discard
  | cancel
deriving DecidableEq, Repr

/-- Result of ScintillaBuffer checkForBufferStateChange: how the on-disk
file compares to the snapshot taken at open, save or reload time. -/
inductive BufferStateChange where
  | noChange
  | modified
  | deleted
  | restored
deriving DecidableEq, Repr

/-- Oracles for every interactive dialog and for the file system.
Prompts are indexed by the tab index (or the path) they concern. -/
structure Env where
  /-- Reply to the Save-file prompt shown for the buffer at a tab index. -/
  saveReply : Nat → SaveReply
  /-- File name returned by the save-as chooser for the buffer at a tab
  index; the empty string models a cancelled dialog. -/
  saveAsFileName : Nat → String
  /-- Whether writing to a path succeeds. -/
  writeOk : String → Bool
  /-- Reply to the reload confirmation question (yes or no). -/
  reloadConfirm : Bool
  /-- checkForBufferStateChange result, per buffer identity. -/
  extState : Nat → BufferStateChange
  /-- Content read from disk at a path. -/
  diskContent : String → String
  /-- QFileInfo isFile: whether the path exists as a regular file. -/
  fileExists : String → Bool
  /-- Reply to the create-file question for a missing path. -/
  createConfirm : String → Bool
  /-- File name returned by the rename chooser; empty means cancelled. -/
  renameFileName : String

/-- Main-window state: the tabbed editor's ordered buffer sequence and
current index, the static counter of newFile, a fresh-identity counter,
and whether the allBuffersClosed-creates-newFile connection is active. -/
structure MWState where
  buffers : List Buffer
  current : Nat
  newCount : Nat
  nextId : Nat
  recoveryEnabled : Bool
deriving DecidableEq, Repr

/-- TabbedEditor count. -/
def MWState.count (s : MWState) : Nat :=
  s.buffers.length

/-- TabbedEditor getBufferFromIndex. -/
def getBufferFromIndex (s : MWState) (i : Nat) : Option Buffer :=
  s.buffers[i]?

/-- TabbedEditor getCurrentBuffer. -/
def getCurrentBuffer (s : MWState) : Option Buffer :=
  s.buffers[s.current]?

/-- Modelled from the spec: TabbedEditor switchToIndex sets the current
pointer and is a silent no-op when the index is out of range. -/
def switchToIndex (s : MWState) (i : Nat) : MWState :=
  if i < s.buffers.length then { s with current := i } else s

/-- Position of the buffer with a given identity in the tab order. -/
def findBufferIndex (bid : Nat) : List Buffer → Option Nat
  | [] => none
  | b :: rest =>
    if b.id = bid then some 0 else (findBufferIndex bid rest).map (· + 1)

/-- Modelled from the spec: TabbedEditor switchToBuffer sets the current
pointer to the position of the given buffer. -/
def switchToBufferId (s : MWState) (bid : Nat) : MWState :=
  match findBufferIndex bid s.buffers with
  | some i => { s with current := i }
  | none => s

/-- Replace the buffer stored at a tab index. -/
def setBufferAt (s : MWState) (i : Nat) (b : Buffer) : MWState :=
  { s with buffers := s.buffers.set i b }

/-- First buffer whose file path equals the given path. -/
def findByPath (p : String) : List Buffer → Option Buffer
  | [] => none
  | b :: rest => if b.filePath = some p then some b else findByPath p rest

/-- Modelled from the spec: BufferManager getBufferByFilePath looks the
path up in the registry's path index (unique keys). -/
def getBufferByFilePath (s : MWState) (p : String) : Option Buffer :=
  findByPath p s.buffers

/-- Modelled from the spec: BufferManager createEmtpyBuffer allocates a
new unsaved buffer with a generated ordinal display name and the tabbed
editor appends it at the end of the sequence. -/
def createEmtpyBuffer (s : MWState) (nm : String) : MWState :=
  let b : Buffer :=
    { id := s.nextId, name := nm, filePath := none,
      is_save_point := true, content := "" }
  { s with buffers := s.buffers ++ [b], nextId := s.nextId + 1 }

/-- MainWindow newFile: create an empty buffer named with the running
ordinal counter and switch to the last tab. -/
def newFile (s : MWState) : MWState :=
  let s1 := createEmtpyBuffer s ("New " ++ toString s.newCount)
  let s2 := { s1 with newCount := s1.newCount + 1 }
  switchToIndex s2 (s2.buffers.length - 1)

/-- The file-backed buffer constructed when a file is opened: fresh
identity, registered path, at save point, content read from disk. -/
def createdBuffer (env : Env) (s : MWState) (p : String) : Buffer :=
  { id := s.nextId, name := p, filePath := some p,
    is_save_point := true, content := env.diskContent p }

/-- Modelled from the spec: BufferManager createBufferFromFile reads the
content, constructs a file-backed buffer at save point, registers it by
path and the tabbed editor appends it; returns the new buffer identity. -/
def createBufferFromFile (env : Env) (s : MWState) (p : String) :
    MWState × Nat :=
  let b := createdBuffer env s p
  ({ s with buffers := s.buffers ++ [b], nextId := s.nextId + 1 }, s.nextId)

/-- Modelled from the spec: BufferManager closeBuffer removes the buffer
from the registry and the tab order unconditionally; when the removal
empties the sequence and the allBuffersClosed connection is active, a
fresh empty buffer is created (MainWindow constructor wiring). The
current index moves to the nearest remaining neighbour. -/
def closeBufferAt (s : MWState) (i : Nat) : MWState :=
  match s.buffers[i]? with
  | none => s
  | some _ =>
    let bs := s.buffers.eraseIdx i
    let cur :=
      if s.current = i then min i (bs.length - 1)
      else if i < s.current then s.current - 1
      else s.current
    if bs.isEmpty && s.recoveryEnabled then
      newFile { s with buffers := bs, current := 0 }
    else
      { s with buffers := bs, current := cur }

/-- BufferManager closeBuffer addressed by buffer identity (the source
passes the buffer pointer). -/
def closeBufferById (s : MWState) (bid : Nat) : MWState :=
  match findBufferIndex bid s.buffers with
  | some i => closeBufferAt s i
  | none => s

/-- Modelled from the spec: BufferManager saveBuffer writes the content
to the existing path and sets the save point; returns false and leaves
everything unchanged when the write fails. -/
def saveBufferAt (env : Env) (s : MWState) (i : Nat) : Bool × MWState :=
  match s.buffers[i]? with
  | none => (false, s)
  | some b =>
    match b.filePath with
    | none => (false, s)
    | some p =>
      if env.writeOk p then
        (true, setBufferAt s i { b with is_save_point := true })
      else
        (false, s)

/-- Modelled from the spec: BufferManager saveBufferAs writes to the new
path, re-associates the buffer with that path and sets the save point;
returns false and leaves everything unchanged when the write fails. -/
def saveBufferAsAt (env : Env) (s : MWState) (i : Nat) (newName : String) :
    Bool × MWState :=
  match s.buffers[i]? with
  | none => (false, s)
  | some b =>
    if env.writeOk newName then
      (true, setBufferAt s i
        { b with filePath := some newName, is_save_point := true })
    else
      (false, s)

/-- Modelled from the spec: BufferManager renameBuffer has the same
semantics as saveBufferAs for the purposes of path re-indexing. -/
def renameBufferAt (env : Env) (s : MWState) (i : Nat) (newName : String) :
    Bool × MWState :=
  saveBufferAsAt env s i newName

/-- Modelled from the spec: BufferManager reloadBuffer re-reads the
content from disk, discarding in-memory edits, and sets the save point;
it is only specified for file-backed buffers, so a buffer without a path
is left unchanged. -/
def reloadBufferAt (env : Env) (s : MWState) (i : Nat) : MWState :=
  match s.buffers[i]? with
  | none => s
  | some b =>
    match b.filePath with
    | none => s
    | some p =>
      setBufferAt s i
        { b with content := env.diskContent p, is_save_point := true }

/-- MainWindow saveCurrentFileAsDialog: show the save-as chooser for the
current buffer; an empty file name (cancelled dialog) returns false,
otherwise the buffer is saved under the chosen name. -/
def saveCurrentFileAsDialog (env : Env) (s : MWState) : Bool × MWState :=
  let fileName := env.saveAsFileName s.current
  if fileName = "" then
    (false, s)
  else
    saveBufferAsAt env s s.current fileName

/-- MainWindow saveFile(buffer), addressed by the buffer's tab index: a
buffer at save point is a no-op success; a dirty buffer that is not
file-backed is switched to and sent through the save-as dialog; a dirty
file-backed buffer is saved through the buffer manager. -/
def saveFileAt (env : Env) (s : MWState) (i : Nat) : Bool × MWState :=
  match s.buffers[i]? with
  | none => (false, s)
  | some b =>
    if b.is_save_point then
      (true, s)
    else if b.filePath.isNone then
      let s1 := switchToIndex s i
      saveCurrentFileAsDialog env s1
    else
      saveBufferAt env s i

/-- MainWindow isInInitialState: exactly one buffer, not file-backed and
at save point. -/
def isInInitialState (s : MWState) : Bool :=
  if s.buffers.length = 1 then
    match s.buffers[0]? with
    | some b => !b.isFile && b.is_save_point
    | none => false
  else
    false

/-- MainWindow checkBuffersBeforeClose loop body, with an explicit fuel
argument bounding the number of iterations (the source iterates the tab
index i from the start of the range to its end). -/
def checkFrom (env : Env) (s : MWState) (i hi : Nat) :
    Nat → Bool × MWState
  | 0 => (true, s)
  | fuel + 1 =>
    if i < hi then
      match s.buffers[i]? with
      | none => checkFrom env s (i + 1) hi fuel
      | some b =>
        if b.is_save_point then
          checkFrom env s (i + 1) hi fuel
        else
          let s1 := switchToIndex s i
          match env.saveReply i with
          | .cancel => (false, s1)
          | .discard => checkFrom env s1 (i + 1) hi fuel
          | .save =>
            let r := saveFileAt env s1 i
            if r.fst then
              checkFrom env r.snd (i + 1) hi fuel
            else
              (false, r.snd)
    else
      (true, s)

/-- MainWindow checkBuffersBeforeClose over the index range
[startIndex, endIndex): the non-destructive checking pass of every
batch close. -/
def checkBuffersBeforeClose (env : Env) (s : MWState) (lo hi : Nat) :
    Bool × MWState :=
  checkFrom env s lo hi (hi - lo)

/-- MainWindow closeFile(index): refused outright in the initial state;
a buffer at save point is closed directly; otherwise the window switches
to it and asks Save / Discard / Cancel. -/
def closeFile (env : Env) (s : MWState) (index : Nat) : MWState :=
  if isInInitialState s then
    s
  else
    match s.buffers[index]? with
    | none => s
    | some b =>
      if b.is_save_point then
        closeBufferAt s index
      else
        let s1 := switchToIndex s index
        match env.saveReply index with
        | .cancel => s1
        | .discard => closeBufferAt s1 index
        | .save =>
          let r := saveFileAt env s1 index
          if r.fst then closeBufferAt r.snd index else r.snd

/-- MainWindow closeCurrentFile. -/
def closeCurrentFile (env : Env) (s : MWState) : MWState :=
  closeFile env s s.current

/-- Second, destructive pass of closeAllFiles: the source loop runs the
index from count - 1 down to 0, closing the buffer at each index; the
argument is the number of iterations left, so the index closed at each
step is that number minus one. -/
def closeSecondPass (s : MWState) : Nat → MWState
  | 0 => s
  | i + 1 => closeSecondPass (closeBufferAt s i) i

/-- MainWindow closeAllFiles(forceClose): without force, the checking
pass over the whole range must succeed first; then the window switches
to the last tab and every buffer is closed in reverse index order. -/
def closeAllFiles (env : Env) (s : MWState) (forceClose : Bool) : MWState :=
  if !forceClose then
    let r := checkBuffersBeforeClose env s 0 s.buffers.length
    if !r.fst then
      r.snd
    else
      let s1 := switchToIndex r.snd (r.snd.buffers.length - 1)
      closeSecondPass s1 s1.buffers.length
  else
    let s1 := switchToIndex s (s.buffers.length - 1)
    closeSecondPass s1 s1.buffers.length

/-- Loop of closeAllToLeft: while the current index is positive, close
the buffer at index 0 (fuel bounds the iterations). -/
def closeLeftLoop : Nat → MWState → MWState
  | 0, s => s
  | fuel + 1, s =>
    if 0 < s.current then closeLeftLoop fuel (closeBufferAt s 0) else s

/-- MainWindow closeAllToLeft: check the range left of the current index,
restore the current index and close everything to its left. -/
def closeAllToLeft (env : Env) (s : MWState) : MWState :=
  let curIndex := s.current
  let r := checkBuffersBeforeClose env s 0 curIndex
  if !r.fst then
    r.snd
  else
    let s1 := switchToIndex r.snd curIndex
    closeLeftLoop s1.buffers.length s1

/-- Loop of closeAllToRight: while buffers remain right of the saved
index, close the buffer just right of it (fuel bounds the iterations). -/
def closeRightLoop (curIndex : Nat) : Nat → MWState → MWState
  | 0, s => s
  | fuel + 1, s =>
    if curIndex < s.buffers.length - 1 then
      closeRightLoop curIndex fuel (closeBufferAt s (curIndex + 1))
    else
      s

/-- MainWindow closeAllToRight: check the range from the current index to
the end, restore the current index and close everything to its right. -/
def closeAllToRight (env : Env) (s : MWState) : MWState :=
  let curIndex := s.current
  let r := checkBuffersBeforeClose env s curIndex s.buffers.length
  if !r.fst then
    r.snd
  else
    let s1 := switchToIndex r.snd curIndex
    closeRightLoop curIndex s1.buffers.length s1

/-- Loop of closeAllExceptActive: while more than one buffer remains,
skip the kept buffer and close every other one (fuel bounds the
iterations; the source walks an index, comparing buffer pointers). -/
def closeExceptLoop (keepId : Nat) : Nat → Nat → MWState → MWState
  | 0, _, s => s
  | fuel + 1, i, s =>
    if 1 < s.buffers.length then
      match s.buffers[i]? with
      | none => s
      | some b =>
        if b.id = keepId then
          closeExceptLoop keepId fuel (i + 1) s
        else
          closeExceptLoop keepId fuel i (closeBufferAt s i)
    else
      s

/-- MainWindow closeAllExceptActive: check the ranges on both sides of
the current buffer, then close every buffer except the one kept. -/
def closeAllExceptActive (env : Env) (s : MWState) : MWState :=
  match s.buffers[s.current]? with
  | none => s
  | some currentBuffer =>
    let curIndex := s.current
    let r1 := checkBuffersBeforeClose env s 0 curIndex
    if !r1.fst then
      r1.snd
    else
      let r2 :=
        checkBuffersBeforeClose env r1.snd (curIndex + 1)
          r1.snd.buffers.length
      if !r2.fst then
        r2.snd
      else
        closeExceptLoop currentBuffer.id r2.snd.buffers.length 0 r2.snd

/-- MainWindow closeEvent: run the checking pass over every buffer; on
failure the close event is ignored; on success the allBuffersClosed
recovery connection is disconnected and every buffer is force-closed.
The boolean records whether the event was accepted. -/
def closeEvent (env : Env) (s : MWState) : Bool × MWState :=
  let r := checkBuffersBeforeClose env s 0 s.buffers.length
  if !r.fst then
    (false, r.snd)
  else
    let s1 := { r.snd with recoveryEnabled := false }
    (true, closeAllFiles env s1 true)

/-- MainWindow reloadFile: the boolean records whether the buffer
manager's reloadBuffer was invoked. The source returns early only when
the current buffer is not file-backed and not at save point; otherwise
the user is asked to confirm and a confirmation triggers the reload. -/
def reloadFile (env : Env) (s : MWState) : Bool × MWState :=
  match s.buffers[s.current]? with
  | none => (false, s)
  | some b =>
    if !b.isFile && !b.is_save_point then
      (false, s)
    else if env.reloadConfirm then
      (true, reloadBufferAt env s s.current)
    else
      (false, s)

/-- MainWindow checkBufferForModification, addressed by tab index: acts
by case of checkForBufferStateChange; returns whether a change was
detected. -/
def checkBufferForModification (env : Env) (s : MWState) (i : Nat) :
    Bool × MWState :=
  match s.buffers[i]? with
  | none => (false, s)
  | some b =>
    match env.extState b.id with
    | .noChange => (false, s)
    | .modified => (true, reloadBufferAt env s i)
    | .deleted => (true, s)
    | .restored => (true, s)

/-- MainWindow bufferActivated on the buffer at a tab index (the gui
update carries no core state). -/
def bufferActivated (env : Env) (s : MWState) (i : Nat) : MWState :=
  (checkBufferForModification env s i).snd

/-- MainWindow focusIn: reconcile the current buffer. -/
def focusIn (env : Env) (s : MWState) : MWState :=
  (checkBufferForModification env s s.current).snd

/-- Loop of openFileList over the file names, carrying the most recently
opened buffer identity: an already-open path records the existing buffer;
a missing path is created only after confirmation; otherwise the file is
opened through the buffer manager. -/
def openLoop (env : Env) (s : MWState) :
    List String → Option Nat → MWState × Option Nat
  | [], mr => (s, mr)
  | p :: rest, mr =>
    match getBufferByFilePath s p with
    | some b => openLoop env s rest (some b.id)
    | none =>
      if env.fileExists p then
        let r := createBufferFromFile env s p
        openLoop env r.fst rest (some r.snd)
      else if env.createConfirm p then
        let r := createBufferFromFile env s p
        openLoop env r.fst rest (some r.snd)
      else
        openLoop env s rest mr

/-- MainWindow openFileList: open every name in the list; if any was
opened or already open, switch to the most recent one and, when the
window started in the initial state, close the placeholder at index 0. -/
def openFileList (env : Env) (s : MWState) (fileNames : List String) :
    MWState :=
  if fileNames = [] then
    s
  else
    let wasInitialState := isInInitialState s
    let r := openLoop env s fileNames none
    match r.snd with
    | none => r.fst
    | some bid =>
      let s2 := switchToBufferId r.fst bid
      if wasInitialState then closeFile env s2 0 else s2

/-- MainWindow openFile. -/
def openFile (env : Env) (s : MWState) (filePath : String) : MWState :=
  openFileList env s [filePath]

/-- MainWindow renameFile: ask for a new name for the current (asserted
file-backed) buffer; look up a possibly open buffer under that name
before renaming; after a successful rename, close that other buffer. -/
def renameFile (env : Env) (s : MWState) : MWState :=
  match s.buffers[s.current]? with
  | none => s
  | some _ =>
    let fileName := env.renameFileName
    if fileName = "" then
      s
    else
      let otherBuffer := getBufferByFilePath s fileName
      let r := renameBufferAt env s s.current fileName
      if r.fst then
        match otherBuffer with
        | some o => closeBufferById r.snd o.id
        | none => r.snd
      else
        r.snd

/-- The observable record of the open buffers: identity and content, in
tab order. Operations that neither close a buffer nor touch its text
preserve it. -/
def obs (s : MWState) : List (Nat × String) :=
  s.buffers.map (fun b => (b.id, b.content))

/-- A concrete environment: every save prompt answers Cancel, the save-as
chooser is cancelled, writes succeed, reloads are confirmed. -/
def envCancel : Env :=
  { saveReply := fun _ => .cancel
    saveAsFileName := fun _ => ""
    writeOk := fun _ => true
    reloadConfirm := true
    extState := fun _ => .noChange
    diskContent := fun _ => "disk"
    fileExists := fun _ => true
    createConfirm := fun _ => false
    renameFileName := "" }

/-- A fresh untitled buffer as created at startup. -/
def bufUntitled : Buffer :=
  { id := 0, name := "New 1", filePath := none,
    is_save_point := true, content := "" }

/-- A dirty file-backed buffer on a.txt. -/
def bufA : Buffer :=
  { id := 1, name := "a.txt", filePath := some "a.txt",
    is_save_point := false, content := "aa" }

/-- A dirty file-backed buffer on b.txt. -/
def bufB : Buffer :=
  { id := 2, name := "b.txt", filePath := some "b.txt",
    is_save_point := false, content := "bb" }

/-- A dirty untitled buffer. -/
def bufScratch : Buffer :=
  { id := 4, name := "New 2", filePath := none,
    is_save_point := false, content := "notes" }

/-- The window right after startup: one untitled buffer at save point. -/
def stInitial : MWState :=
  { buffers := [bufUntitled], current := 0, newCount := 2, nextId := 3,
    recoveryEnabled := true }

/-- A window with two dirty file-backed buffers. -/
def stTwo : MWState :=
  { buffers := [bufA, bufB], current := 0, newCount := 2, nextId := 3,
    recoveryEnabled := true }

/-- A window with a dirty file-backed buffer and a dirty untitled one. -/
def stMixed : MWState :=
  { buffers := [bufA, bufScratch], current := 0, newCount := 3, nextId := 5,
    recoveryEnabled := true }

/-- Environment whose disk writes all fail. -/
def envNoWrite : Env :=
  { envCancel with writeOk := fun _ => false }

/-- Environment reporting every buffer as externally modified. -/
def envExtMod : Env :=
  { envCancel with extState := fun _ => .modified }

/-- Environment reporting every buffer's file as deleted. -/
def envExtDel : Env :=
  { envCancel with extState := fun _ => .deleted }

/-- Environment reporting every buffer's file as restored. -/
def envExtRes : Env :=
  { envCancel with extState := fun _ => .restored }

/-- Environment whose save prompts all answer Save (and whose save-as
chooser is cancelled, as in envCancel). -/
def envSaveAll : Env :=
  { envCancel with saveReply := fun _ => .save }

/-- Environment whose rename chooser returns b.txt. -/
def envRenameB : Env :=
  { envCancel with renameFileName := "b.txt" }

/-- Environment whose rename chooser returns b.txt but whose writes
fail. -/
def envRenameBFail : Env :=
  { envCancel with renameFileName := "b.txt", writeOk := fun _ => false }

/-- Environment in which no file exists and creation is declined. -/
def envNoFile : Env :=
  { envCancel with fileExists := fun _ => false }

/-- Environment whose save prompts all answer Discard. -/
def envDiscard : Env :=
  { envCancel with saveReply := fun _ => .discard }

/-- The two-dirty-buffer window with the second tab current. -/
def stTwoCur1 : MWState :=
  { stTwo with current := 1 }

/-- The checking pass, on reaching tab index i, aborts there: the prompt
answers Cancel, or it answers Save for a buffer that is not file-backed
and the save-as chooser is then cancelled. -/
def abortsAt (env : Env) (b : Buffer) (i : Nat) : Prop :=
  env.saveReply i = .cancel ∨
    (env.saveReply i = .save ∧ b.filePath = none ∧
      env.saveAsFileName i = "")

/-- C3: closing a file at any index, and closing the current file, when
the sole open buffer is untitled and at save point, leaves the whole
window state unchanged: the buffer remains open with nothing mutated. -/
theorem closeFile_initial_state_noop (env : Env) (s : MWState) (b : Buffer)
    (hbuf : s.buffers = [b]) (hnf : b.filePath = none)
    (hsp : b.is_save_point = true) :
    (∀ i, closeFile env s i = s) ∧ closeCurrentFile env s = s := by
  have hinit : isInInitialState s = true := by
    unfold isInInitialState
    rw [hbuf]
    simp [Buffer.isFile, hnf, hsp]
  constructor
  · intro i
    unfold closeFile
    simp [hinit]
  · unfold closeCurrentFile closeFile
    simp [hinit]

/-- Witness for the C3 theorem at the startup state. -/
theorem closeFile_initial_state_noop_witness :
    closeFile envCancel stInitial 0 = stInitial ∧
      closeFile envCancel stInitial 7 = stInitial ∧
      closeCurrentFile envCancel stInitial = stInitial :=
  ⟨(closeFile_initial_state_noop envCancel stInitial bufUntitled rfl rfl
      rfl).1 0,
   (closeFile_initial_state_noop envCancel stInitial bufUntitled rfl rfl
      rfl).1 7,
   (closeFile_initial_state_noop envCancel stInitial bufUntitled rfl rfl
      rfl).2⟩

/-- C5, recorded divergence: reloadFile returns early only when the
current buffer is neither file-backed nor at save point, so an untitled
buffer at save point passes the guard and, after the user confirms, the
buffer manager's reloadBuffer is invoked on a buffer that has no file
(the first component of reloadFile records that invocation). -/
theorem reloadFile_reaches_nonfile_buffer :
    (reloadFile envCancel stInitial).fst = true ∧
      (getCurrentBuffer stInitial).map Buffer.isFile = some false := by
  decide

/-- C8: saving a buffer already at save point succeeds without any state
change; saving a dirty file-backed buffer returns the buffer manager's
result: on write failure it returns false leaving the state unchanged
(buffer dirty and open), on success it only sets the save point. -/
theorem saveFile_semantics (env : Env) (s : MWState) (i : Nat) (b : Buffer)
    (hget : s.buffers[i]? = some b) :
    (b.is_save_point = true → saveFileAt env s i = (true, s))
  ∧ (∀ pb, b.is_save_point = false → b.filePath = some pb →
      env.writeOk pb = false → saveFileAt env s i = (false, s))
  ∧ (∀ pb, b.is_save_point = false → b.filePath = some pb →
      env.writeOk pb = true →
      saveFileAt env s i =
        (true, setBufferAt s i { b with is_save_point := true })) := by
  refine ⟨?_, ?_, ?_⟩
  · intro hsp
    unfold saveFileAt
    simp [hget, hsp]
  · intro pb hsp hpb hw
    unfold saveFileAt saveBufferAt
    simp [hget, hsp, hpb, hw]
  · intro pb hsp hpb hw
    unfold saveFileAt saveBufferAt
    simp [hget, hsp, hpb, hw]

/-- Witness for the C8 theorem: a clean buffer, a failing write and a
succeeding write. -/
theorem saveFile_semantics_witness :
    saveFileAt envCancel stInitial 0 = (true, stInitial) ∧
      saveFileAt envNoWrite stTwo 0 = (false, stTwo) ∧
      saveFileAt envCancel stTwo 0 =
        (true, setBufferAt stTwo 0 { bufA with is_save_point := true }) :=
  ⟨(saveFile_semantics envCancel stInitial 0 bufUntitled rfl).1 rfl,
   (saveFile_semantics envNoWrite stTwo 0 bufA rfl).2.1 "a.txt" rfl rfl rfl,
   (saveFile_semantics envCancel stTwo 0 bufA rfl).2.2 "a.txt" rfl rfl rfl⟩

/-- C6: external-modification reconciliation dispatches on the detected
state: no change produces no action; a modification triggers an
unconditional reload through the buffer manager, replacing the content
with the on-disk content and setting the save point with no prompt and
no dirty check; a deletion or restoration changes no state; buffer
activation and focus-in run exactly this reconciliation. -/
theorem external_modification_policy (env : Env) (s : MWState) (i : Nat)
    (b : Buffer) (hget : s.buffers[i]? = some b) :
    (env.extState b.id = .noChange →
      checkBufferForModification env s i = (false, s))
  ∧ (env.extState b.id = .modified →
      checkBufferForModification env s i = (true, reloadBufferAt env s i))
  ∧ (∀ pb, env.extState b.id = .modified → b.filePath = some pb →
      (checkBufferForModification env s i).snd.buffers[i]? =
        some { b with content := env.diskContent pb, is_save_point := true })
  ∧ (env.extState b.id = .deleted →
      checkBufferForModification env s i = (true, s))
  ∧ (env.extState b.id = .restored →
      checkBufferForModification env s i = (true, s))
  ∧ bufferActivated env s i = (checkBufferForModification env s i).snd
  ∧ focusIn env s = (checkBufferForModification env s s.current).snd := by
  have hlen : i < s.buffers.length := by
    rcases List.getElem?_eq_some.mp hget with ⟨h, _⟩
    exact h
  refine ⟨?_, ?_, ?_, ?_, ?_, rfl, rfl⟩
  · intro hx
    unfold checkBufferForModification
    simp [hget, hx]
  · intro hx
    unfold checkBufferForModification
    simp [hget, hx]
  · intro pb hx hpb
    unfold checkBufferForModification reloadBufferAt
    simp [hget, hx, hpb, setBufferAt]
    exact List.getElem?_set_eq_of_lt _ hlen
  · intro hx
    unfold checkBufferForModification
    simp [hget, hx]
  · intro hx
    unfold checkBufferForModification
    simp [hget, hx]

/-- Witness for the C6 theorem, one instantiation per detected state. -/
theorem external_modification_policy_witness :
    checkBufferForModification envCancel stTwo 0 = (false, stTwo) ∧
      checkBufferForModification envExtMod stTwo 0 =
        (true, reloadBufferAt envExtMod stTwo 0) ∧
      (checkBufferForModification envExtMod stTwo 0).snd.buffers[0]? =
        some { bufA with content := "disk", is_save_point := true } ∧
      checkBufferForModification envExtDel stTwo 0 = (true, stTwo) ∧
      checkBufferForModification envExtRes stTwo 0 = (true, stTwo) ∧
      bufferActivated envCancel stTwo 0 =
        (checkBufferForModification envCancel stTwo 0).snd :=
  ⟨(external_modification_policy envCancel stTwo 0 bufA rfl).1 rfl,
   (external_modification_policy envExtMod stTwo 0 bufA rfl).2.1 rfl,
   (external_modification_policy envExtMod stTwo 0 bufA rfl).2.2.1 "a.txt"
     rfl rfl,
   (external_modification_policy envExtDel stTwo 0 bufA rfl).2.2.2.1 rfl,
   (external_modification_policy envExtRes stTwo 0 bufA rfl).2.2.2.2.1 rfl,
   (external_modification_policy envCancel stTwo 0 bufA rfl).2.2.2.2.2.1⟩

/-- Replacing a list entry by one with the same image under a map leaves
the mapped list unchanged. -/
lemma map_set_same {α β : Type} (f : α → β) (l : List α) :
    ∀ (i : Nat) (a b : α), l[i]? = some a → f b = f a →
      (l.set i b).map f = l.map f := by
  induction l with
  | nil =>
    intro i a b h _
    simp at h
  | cons x t ih =>
    intro i a b h hf
    cases i with
    | zero =>
      simp only [List.getElem?_cons_zero, Option.some.injEq] at h
      subst h
      simp [hf]
    | succ j =>
      simp only [List.getElem?_cons_succ] at h
      simp [ih j a b h hf]

lemma switchToIndex_buffers (s : MWState) (i : Nat) :
    (switchToIndex s i).buffers = s.buffers := by
  unfold switchToIndex
  split <;> rfl

lemma switchToIndex_recovery (s : MWState) (i : Nat) :
    (switchToIndex s i).recoveryEnabled = s.recoveryEnabled := by
  unfold switchToIndex
  split <;> rfl

lemma switchToIndex_of_lt (s : MWState) (i : Nat)
    (h : i < s.buffers.length) :
    switchToIndex s i = { s with current := i } := by
  unfold switchToIndex
  rw [if_pos h]

lemma obs_switchToIndex (s : MWState) (i : Nat) :
    obs (switchToIndex s i) = obs s := by
  unfold obs
  rw [switchToIndex_buffers]

lemma length_of_obs_eq {s1 s2 : MWState} (h : obs s1 = obs s2) :
    s1.buffers.length = s2.buffers.length := by
  have := congrArg List.length h
  simpa [obs] using this

/-- Frame of the modelled saveBufferAs: the buffer identities and
contents, the recovery flag, and every other tab are untouched. -/
lemma saveBufferAsAt_frame (env : Env) (s : MWState) (i : Nat)
    (nm : String) :
    obs (saveBufferAsAt env s i nm).snd = obs s ∧
      (saveBufferAsAt env s i nm).snd.recoveryEnabled =
        s.recoveryEnabled ∧
      ∀ j, j ≠ i →
        (saveBufferAsAt env s i nm).snd.buffers[j]? = s.buffers[j]? := by
  unfold saveBufferAsAt
  cases hget : s.buffers[i]? with
  | none => simp
  | some b =>
    by_cases hw : env.writeOk nm
    · simp only [hw, if_true]
      refine ⟨?_, rfl, ?_⟩
      · unfold obs setBufferAt
        exact map_set_same _ _ i b _ hget rfl
      · intro j hj
        unfold setBufferAt
        exact List.getElem?_set_ne (Ne.symm hj)
    · simp [hw]

/-- Frame of the modelled saveBuffer, as for saveBufferAsAt. -/
lemma saveBufferAt_frame (env : Env) (s : MWState) (i : Nat) :
    obs (saveBufferAt env s i).snd = obs s ∧
      (saveBufferAt env s i).snd.recoveryEnabled = s.recoveryEnabled ∧
      ∀ j, j ≠ i →
        (saveBufferAt env s i).snd.buffers[j]? = s.buffers[j]? := by
  unfold saveBufferAt
  cases hget : s.buffers[i]? with
  | none => simp
  | some b =>
    cases hp : b.filePath with
    | none => simp [hp]
    | some p =>
      simp only [hp]
      by_cases hw : env.writeOk p
      · simp only [hw, if_true]
        refine ⟨?_, rfl, ?_⟩
        · unfold obs setBufferAt
          exact map_set_same _ _ i b _ hget rfl
        · intro j hj
          unfold setBufferAt
          exact List.getElem?_set_ne (Ne.symm hj)
      · simp [hw]

/-- Frame of saveFile: whatever path it takes (no-op, save-as dialog or
direct save), it never closes a buffer, never touches any content, and
modifies no tab other than the one saved. -/
lemma saveFileAt_frame (env : Env) (s : MWState) (i : Nat) :
    obs (saveFileAt env s i).snd = obs s ∧
      (saveFileAt env s i).snd.recoveryEnabled = s.recoveryEnabled ∧
      ∀ j, j ≠ i →
        (saveFileAt env s i).snd.buffers[j]? = s.buffers[j]? := by
  unfold saveFileAt
  cases hget : s.buffers[i]? with
  | none => simp
  | some b =>
    have hlen : i < s.buffers.length := (List.getElem?_eq_some.mp hget).1
    by_cases hsp : b.is_save_point
    · simp [hsp]
    · simp only [hsp, if_false, Bool.false_eq_true]
      by_cases hnf : b.filePath.isNone
      · simp only [hnf, if_true]
        rw [switchToIndex_of_lt s i hlen]
        unfold saveCurrentFileAsDialog
        dsimp only
        by_cases hname : env.saveAsFileName i = ""
        · rw [if_pos hname]
          exact ⟨rfl, rfl, fun _ _ => rfl⟩
        · simp only [hname, if_false]
          have h := saveBufferAsAt_frame env { s with current := i } i
            (env.saveAsFileName i)
          exact ⟨h.1, h.2.1, h.2.2⟩
      · simp only [hnf, if_false, Bool.false_eq_true]
        exact saveBufferAt_frame env s i

/-- saveFile on a dirty buffer with no file returns false when the
save-as chooser is cancelled. -/
lemma saveFileAt_saveas_cancel (env : Env) (s : MWState) (i : Nat)
    (b : Buffer) (hget : s.buffers[i]? = some b)
    (hsp : b.is_save_point = false) (hnf : b.filePath = none)
    (hnm : env.saveAsFileName i = "") :
    (saveFileAt env s i).fst = false := by
  have hlen : i < s.buffers.length := (List.getElem?_eq_some.mp hget).1
  unfold saveFileAt
  rw [hget]
  simp only [hsp, if_false, Bool.false_eq_true, hnf, Option.isNone_none,
    if_true]
  rw [switchToIndex_of_lt s i hlen]
  unfold saveCurrentFileAsDialog
  simp [hnm]

/-- Frame of the checking pass: it never closes a buffer, never touches
any content, keeps the recovery connection, and leaves every tab outside
the checked range untouched. -/
lemma checkFrom_frame (env : Env) :
    ∀ (fuel : Nat) (s : MWState) (i hi : Nat),
      obs (checkFrom env s i hi fuel).snd = obs s ∧
        (checkFrom env s i hi fuel).snd.recoveryEnabled =
          s.recoveryEnabled ∧
        ∀ j, j < i ∨ hi ≤ j →
          (checkFrom env s i hi fuel).snd.buffers[j]? = s.buffers[j]? := by
  intro fuel
  induction fuel with
  | zero =>
    intro s i hi
    exact ⟨rfl, rfl, fun _ _ => rfl⟩
  | succ f ih =>
    intro s i hi
    unfold checkFrom
    by_cases hih : i < hi
    · simp only [hih, if_true]
      cases hget : s.buffers[i]? with
      | none =>
        have h := ih s (i + 1) hi
        exact ⟨h.1, h.2.1, fun j hj => h.2.2 j (by omega)⟩
      | some b =>
        by_cases hsp : b.is_save_point
        · simp only [hsp, if_true]
          have h := ih s (i + 1) hi
          exact ⟨h.1, h.2.1, fun j hj => h.2.2 j (by omega)⟩
        · simp only [hsp, if_false, Bool.false_eq_true]
          cases hrep : env.saveReply i with
          | cancel =>
            refine ⟨obs_switchToIndex s i, switchToIndex_recovery s i,
              fun j _ => ?_⟩
            rw [switchToIndex_buffers]
          | discard =>
            have h := ih (switchToIndex s i) (i + 1) hi
            refine ⟨?_, ?_, fun j hj => ?_⟩
            · rw [h.1, obs_switchToIndex]
            · rw [h.2.1, switchToIndex_recovery]
            · rw [h.2.2 j (by omega), switchToIndex_buffers]
          | save =>
            dsimp only
            have hsf := saveFileAt_frame env (switchToIndex s i) i
            by_cases hr : (saveFileAt env (switchToIndex s i) i).fst
            · simp only [hr, if_true]
              have h := ih (saveFileAt env (switchToIndex s i) i).snd
                (i + 1) hi
              refine ⟨?_, ?_, fun j hj => ?_⟩
              · rw [h.1, hsf.1, obs_switchToIndex]
              · rw [h.2.1, hsf.2.1, switchToIndex_recovery]
              · rw [h.2.2 j (by omega), hsf.2.2 j (by omega),
                  switchToIndex_buffers]
            · simp only [hr, if_false, Bool.false_eq_true]
              refine ⟨?_, ?_, fun j hj => ?_⟩
              · rw [hsf.1, obs_switchToIndex]
              · rw [hsf.2.1, switchToIndex_recovery]
              · rw [hsf.2.2 j (by omega), switchToIndex_buffers]
    · rw [if_neg hih]
      exact ⟨rfl, rfl, fun _ _ => rfl⟩

/-- If some tab in the checked range holds a dirty buffer whose prompt
aborts (Cancel, or Save with a cancelled save-as chooser), the checking
pass returns false. -/
lemma checkFrom_abort (env : Env) :
    ∀ (fuel : Nat) (s : MWState) (j hi i : Nat) (b : Buffer),
      j ≤ i → i < hi → hi - j ≤ fuel →
      s.buffers[i]? = some b → b.is_save_point = false →
      abortsAt env b i →
      (checkFrom env s j hi fuel).fst = false := by
  intro fuel
  induction fuel with
  | zero =>
    intro s j hi i b hji hihi hfuel _ _ _
    omega
  | succ f ih =>
    intro s j hi i b hji hihi hfuel hget hsp hab
    unfold checkFrom
    have hjhi : j < hi := lt_of_le_of_lt hji hihi
    simp only [hjhi, if_true]
    rcases Nat.lt_or_ge j i with hji' | hji'
    · -- still left of the aborting tab: one more step
      cases hgj : s.buffers[j]? with
      | none =>
        exact ih s (j + 1) hi i b (by omega) hihi (by omega) hget hsp hab
      | some bj =>
        by_cases hspj : bj.is_save_point
        · simp only [hspj, if_true]
          exact ih s (j + 1) hi i b (by omega) hihi (by omega) hget hsp hab
        · simp only [hspj, if_false, Bool.false_eq_true]
          cases hrj : env.saveReply j with
          | cancel => rfl
          | discard =>
            apply ih (switchToIndex s j) (j + 1) hi i b (by omega) hihi
              (by omega) _ hsp hab
            rw [switchToIndex_buffers]
            exact hget
          | save =>
            dsimp only
            by_cases hr : (saveFileAt env (switchToIndex s j) j).fst
            · simp only [hr, if_true]
              apply ih _ (j + 1) hi i b (by omega) hihi (by omega) _ hsp hab
              rw [(saveFileAt_frame env (switchToIndex s j) j).2.2 i
                (by omega), switchToIndex_buffers]
              exact hget
            · simp [hr]
    · -- at the aborting tab itself
      have hj : j = i := le_antisymm hji hji'
      subst hj
      rw [hget]
      simp only [hsp, if_false, Bool.false_eq_true]
      rcases hab with hc | ⟨hsv, hnf, hnm⟩
      · rw [hc]
      · rw [hsv]
        dsimp only
        have hfst : (saveFileAt env (switchToIndex s j) j).fst = false := by
          apply saveFileAt_saveas_cancel env _ j b _ hsp hnf hnm
          rw [switchToIndex_buffers]
          exact hget
        simp [hfst]

lemma checkBuffersBeforeClose_def (env : Env) (s : MWState) (lo hi : Nat) :
    checkBuffersBeforeClose env s lo hi = checkFrom env s lo hi (hi - lo) :=
  rfl

/-- C1: when the Save-file prompt of a dirty buffer in the checked range
answers Cancel, the checking pass of a batch close returns false and
leaves every buffer open with identity and content unmodified, and each
batch-close operation whose checked range contains that tab returns
before its destructive second pass: the observable buffer sequence is
exactly the one from before the invocation. -/
theorem batch_close_cancel_aborts (env : Env) (s : MWState) (i : Nat)
    (b : Buffer) (hget : s.buffers[i]? = some b)
    (hd : b.is_save_point = false) (hc : env.saveReply i = .cancel) :
    (∀ lo hi, lo ≤ i → i < hi →
      (checkBuffersBeforeClose env s lo hi).fst = false ∧
        obs (checkBuffersBeforeClose env s lo hi).snd = obs s)
  ∧ obs (closeAllFiles env s false) = obs s
  ∧ (closeEvent env s).fst = false
  ∧ obs (closeEvent env s).snd = obs s
  ∧ (i < s.current → obs (closeAllToLeft env s) = obs s)
  ∧ (s.current ≤ i → obs (closeAllToRight env s) = obs s)
  ∧ (i ≠ s.current → obs (closeAllExceptActive env s) = obs s) := by
  have hlen : i < s.buffers.length := (List.getElem?_eq_some.mp hget).1
  have hab : abortsAt env b i := Or.inl hc
  have hcheck : ∀ lo hi, lo ≤ i → i < hi →
      (checkBuffersBeforeClose env s lo hi).fst = false := by
    intro lo hi hlo hhi
    rw [checkBuffersBeforeClose_def]
    exact checkFrom_abort env (hi - lo) s lo hi i b hlo hhi (le_refl _)
      hget hd hab
  have hobs : ∀ lo hi,
      obs (checkBuffersBeforeClose env s lo hi).snd = obs s := by
    intro lo hi
    rw [checkBuffersBeforeClose_def]
    exact (checkFrom_frame env (hi - lo) s lo hi).1
  have hfst0 := hcheck 0 s.buffers.length (Nat.zero_le i) hlen
  refine ⟨fun lo hi hlo hhi => ⟨hcheck lo hi hlo hhi, hobs lo hi⟩,
    ?_, ?_, ?_, ?_, ?_, ?_⟩
  · unfold closeAllFiles
    simp only [Bool.not_false, reduceIte]
    rw [hfst0]
    simp only [Bool.not_false, reduceIte]
    exact hobs 0 s.buffers.length
  · unfold closeEvent
    simp only []
    rw [hfst0]
    simp only [Bool.not_false, reduceIte]
  · unfold closeEvent
    simp only []
    rw [hfst0]
    simp only [Bool.not_false, reduceIte]
    exact hobs 0 s.buffers.length
  · intro hcur
    unfold closeAllToLeft
    simp only []
    rw [hcheck 0 s.current (Nat.zero_le i) hcur]
    simp only [Bool.not_false, reduceIte]
    exact hobs 0 s.current
  · intro hcur
    unfold closeAllToRight
    simp only []
    rw [hcheck s.current s.buffers.length hcur hlen]
    simp only [Bool.not_false, reduceIte]
    exact hobs s.current s.buffers.length
  · intro hne
    unfold closeAllExceptActive
    cases hgc : s.buffers[s.current]? with
    | none => rfl
    | some cb =>
      simp only []
      rcases Nat.lt_or_ge i s.current with hlt | hge
      · rw [hcheck 0 s.current (Nat.zero_le i) hlt]
        simp only [Bool.not_false, reduceIte]
        exact hobs 0 s.current
      · have hgt : s.current < i := by omega
        by_cases h1 : (checkBuffersBeforeClose env s 0 s.current).fst
        · rw [h1]
          simp only [Bool.not_true, reduceIte]
          have hpres :
              (checkBuffersBeforeClose env s 0 s.current).snd.buffers[i]? =
                some b := by
            rw [checkBuffersBeforeClose_def]
            rw [(checkFrom_frame env (s.current - 0) s 0 s.current).2.2 i
              (Or.inr hge)]
            exact hget
          have hlen1 :
              (checkBuffersBeforeClose env s 0 s.current).snd.buffers.length
                = s.buffers.length :=
            length_of_obs_eq (hobs 0 s.current)
          have h2 : (checkBuffersBeforeClose env
              (checkBuffersBeforeClose env s 0 s.current).snd
              (s.current + 1)
              (checkBuffersBeforeClose env s 0 s.current).snd.buffers.length
              ).fst = false := by
            rw [checkBuffersBeforeClose_def]
            apply checkFrom_abort env _ _ (s.current + 1) _ i b (by omega)
              (by omega) (le_refl _) hpres hd hab
          rw [h2]
          simp only [Bool.not_false, reduceIte]
          calc obs (checkBuffersBeforeClose env
                (checkBuffersBeforeClose env s 0 s.current).snd
                (s.current + 1)
                (checkBuffersBeforeClose env s 0 s.current
                  ).snd.buffers.length).snd
              = obs (checkBuffersBeforeClose env s 0 s.current).snd := by
                rw [checkBuffersBeforeClose_def]
                exact (checkFrom_frame env _ _ _ _).1
            _ = obs s := hobs 0 s.current
        · rw [Bool.not_eq_true] at h1
          rw [h1]
          simp only [Bool.not_false, reduceIte]
          exact hobs 0 s.current

/-- Witness for the C1 theorem: two dirty buffers, every prompt answers
Cancel; all batch-close invocations leave both buffers open and
untouched. -/
theorem batch_close_cancel_aborts_witness :
    (checkBuffersBeforeClose envCancel stTwo 0 2).fst = false ∧
      obs (checkBuffersBeforeClose envCancel stTwo 0 2).snd = obs stTwo ∧
      obs (closeAllFiles envCancel stTwo false) = obs stTwo ∧
      (closeEvent envCancel stTwo).fst = false ∧
      obs (closeEvent envCancel stTwo).snd = obs stTwo ∧
      obs (closeAllToRight envCancel stTwo) = obs stTwo ∧
      obs (closeAllToLeft envCancel stTwoCur1) = obs stTwoCur1 ∧
      obs (closeAllExceptActive envCancel stTwoCur1) = obs stTwoCur1 := by
  have w1 := batch_close_cancel_aborts envCancel stTwo 0 bufA rfl rfl rfl
  have w2 := batch_close_cancel_aborts envCancel stTwoCur1 0 bufA rfl rfl rfl
  exact ⟨(w1.1 0 2 (by decide) (by decide)).1,
    (w1.1 0 2 (by decide) (by decide)).2,
    w1.2.1, w1.2.2.1, w1.2.2.2.1,
    w1.2.2.2.2.2.1 (by decide),
    w2.2.2.2.2.1 (by decide),
    w2.2.2.2.2.2.2 (by decide)⟩

/-- C2: when a dirty buffer with no backing file receives Save during
the checking pass and the save-as chooser is then cancelled (empty file
name), saveFile returns false and the whole batch aborts exactly as for
Cancel: the checking pass returns false and close-all leaves the
observable buffer sequence untouched. -/
theorem saveas_cancel_aborts_batch (env : Env) (s : MWState) (i : Nat)
    (b : Buffer) (hget : s.buffers[i]? = some b)
    (hd : b.is_save_point = false) (hnf : b.filePath = none)
    (hsv : env.saveReply i = .save) (hnm : env.saveAsFileName i = "") :
    (saveFileAt env s i).fst = false
  ∧ (∀ lo hi, lo ≤ i → i < hi →
      (checkBuffersBeforeClose env s lo hi).fst = false ∧
        obs (checkBuffersBeforeClose env s lo hi).snd = obs s)
  ∧ obs (closeAllFiles env s false) = obs s := by
  have hlen : i < s.buffers.length := (List.getElem?_eq_some.mp hget).1
  have hab : abortsAt env b i := Or.inr ⟨hsv, hnf, hnm⟩
  have hcheck : ∀ lo hi, lo ≤ i → i < hi →
      (checkBuffersBeforeClose env s lo hi).fst = false := by
    intro lo hi hlo hhi
    rw [checkBuffersBeforeClose_def]
    exact checkFrom_abort env (hi - lo) s lo hi i b hlo hhi (le_refl _)
      hget hd hab
  have hobs : ∀ lo hi,
      obs (checkBuffersBeforeClose env s lo hi).snd = obs s := by
    intro lo hi
    rw [checkBuffersBeforeClose_def]
    exact (checkFrom_frame env (hi - lo) s lo hi).1
  refine ⟨saveFileAt_saveas_cancel env s i b hget hd hnf hnm,
    fun lo hi hlo hhi => ⟨hcheck lo hi hlo hhi, hobs lo hi⟩, ?_⟩
  unfold closeAllFiles
  simp only [Bool.not_false, reduceIte]
  rw [hcheck 0 s.buffers.length (Nat.zero_le i) hlen]
  simp only [Bool.not_false, reduceIte]
  exact hobs 0 s.buffers.length

/-- Witness for the C2 theorem: a dirty file-backed buffer whose save
succeeds followed by a dirty untitled buffer whose save-as chooser is
cancelled; the batch aborts with both buffers open. -/
theorem saveas_cancel_aborts_batch_witness :
    (saveFileAt envSaveAll stMixed 1).fst = false ∧
      (checkBuffersBeforeClose envSaveAll stMixed 0 2).fst = false ∧
      obs (checkBuffersBeforeClose envSaveAll stMixed 0 2).snd =
        obs stMixed ∧
      obs (closeAllFiles envSaveAll stMixed false) = obs stMixed := by
  have w := saveas_cancel_aborts_batch envSaveAll stMixed 1 bufScratch
    rfl rfl rfl rfl rfl
  exact ⟨w.1, (w.2.1 0 2 (by decide) (by decide)).1,
    (w.2.1 0 2 (by decide) (by decide)).2, w.2.2⟩

lemma findByPath_mem (p : String) (l : List Buffer) (b : Buffer) :
    findByPath p l = some b → b ∈ l ∧ b.filePath = some p := by
  induction l with
  | nil =>
    intro h
    simp [findByPath] at h
  | cons x t ih =>
    intro h
    unfold findByPath at h
    by_cases hx : x.filePath = some p
    · rw [if_pos hx] at h
      obtain rfl : x = b := by simpa using h
      exact ⟨List.mem_cons_self x t, hx⟩
    · rw [if_neg hx] at h
      obtain ⟨hm, hp⟩ := ih h
      exact ⟨List.mem_cons_of_mem x hm, hp⟩

lemma findBufferIndex_nodup (l : List Buffer) (b : Buffer) :
    b ∈ l → (l.map Buffer.id).Nodup →
      ∃ k, findBufferIndex b.id l = some k ∧ l[k]? = some b := by
  induction l with
  | nil =>
    intro hb _
    simp at hb
  | cons x t ih =>
    intro hb hnd
    by_cases hx : x.id = b.id
    · refine ⟨0, ?_, ?_⟩
      · unfold findBufferIndex
        rw [if_pos hx]
      · rcases List.mem_cons.mp hb with hbx | hbt
        · simp [hbx]
        · exfalso
          have hmap : b.id ∈ t.map Buffer.id := List.mem_map_of_mem _ hbt
          have hnotin := (List.nodup_cons.mp hnd).1
          rw [hx] at hnotin
          exact hnotin hmap
    · have hbt : b ∈ t := by
        rcases List.mem_cons.mp hb with hbx | hbt
        · exact absurd (by rw [hbx]) hx
        · exact hbt
      obtain ⟨k, hk1, hk2⟩ := ih hbt (List.nodup_cons.mp hnd).2
      refine ⟨k + 1, ?_, ?_⟩
      · unfold findBufferIndex
        rw [if_neg hx, hk1]
        rfl
      · simpa using hk2

lemma isInInitialState_false_of_file (s : MWState) (b : Buffer)
    (hmem : b ∈ s.buffers) (hf : b.isFile = true) :
    isInInitialState s = false := by
  unfold isInInitialState
  by_cases hl : s.buffers.length = 1
  · rw [if_pos hl]
    obtain ⟨a, ha⟩ := List.length_eq_one.mp hl
    rw [ha] at hmem
    obtain rfl : b = a := by simpa using hmem
    rw [ha]
    simp [hf]
  · rw [if_neg hl]

/-- C4: opening a path that is already open creates no second buffer:
the buffer sequence is unchanged and the current tab becomes the
position of the existing buffer for that path, so opening the same path
twice is idempotent on the set of open buffers. -/
theorem opening_open_path_idempotent (env : Env) (s : MWState)
    (p : String) (b : Buffer)
    (hfind : getBufferByFilePath s p = some b)
    (hnd : (s.buffers.map Buffer.id).Nodup) :
    (openFile env s p).buffers = s.buffers ∧
      ∃ k, (openFile env s p).current = k ∧ s.buffers[k]? = some b := by
  obtain ⟨hmem, hpath⟩ := findByPath_mem p s.buffers b hfind
  have hinit : isInInitialState s = false :=
    isInInitialState_false_of_file s b hmem (by simp [Buffer.isFile, hpath])
  obtain ⟨k, hk1, hk2⟩ := findBufferIndex_nodup s.buffers b hmem hnd
  have hloop : openLoop env s [p] none = (s, some b.id) := by
    unfold openLoop
    rw [show getBufferByFilePath s p = some b from hfind]
    rfl
  unfold openFile openFileList
  rw [if_neg (List.cons_ne_nil p [])]
  simp only []
  rw [hloop]
  simp only [hinit, Bool.false_eq_true, reduceIte]
  unfold switchToBufferId
  rw [hk1]
  exact ⟨rfl, k, rfl, hk2⟩

/-- Witness for the C4 theorem: opening b.txt while it is already open
leaves the buffers unchanged and makes its tab current. -/
theorem opening_open_path_idempotent_witness :
    (openFile envCancel stTwo "b.txt").buffers = stTwo.buffers ∧
      ∃ k, (openFile envCancel stTwo "b.txt").current = k ∧
        stTwo.buffers[k]? = some bufB :=
  opening_open_path_idempotent envCancel stTwo "b.txt" bufB (by decide)
    (by decide)

lemma newFile_buffers (s : MWState) :
    (newFile s).buffers = s.buffers ++
      [{ id := s.nextId, name := "New " ++ toString s.newCount,
          filePath := none, is_save_point := true, content := "" }] := by
  unfold newFile createEmtpyBuffer
  rw [switchToIndex_buffers]

lemma newFile_ne_nil (s : MWState) : (newFile s).buffers ≠ [] := by
  rw [newFile_buffers]
  simp

lemma newFile_recovery (s : MWState) :
    (newFile s).recoveryEnabled = s.recoveryEnabled := by
  unfold newFile createEmtpyBuffer
  rw [switchToIndex_recovery]

lemma closeBufferAt_recovery (s : MWState) (i : Nat) :
    (closeBufferAt s i).recoveryEnabled = s.recoveryEnabled := by
  unfold closeBufferAt
  cases hget : s.buffers[i]? with
  | none => rfl
  | some b =>
    dsimp only
    split
    · rw [newFile_recovery]
    · rfl

lemma closeBufferAt_ne_nil (s : MWState) (i : Nat)
    (hrec : s.recoveryEnabled = true) (hne : s.buffers ≠ []) :
    (closeBufferAt s i).buffers ≠ [] := by
  unfold closeBufferAt
  cases hget : s.buffers[i]? with
  | none => exact hne
  | some b =>
    dsimp only
    by_cases hemp : (s.buffers.eraseIdx i).isEmpty
    · rw [hemp, hrec]
      simp only [Bool.and_self, if_true]
      exact newFile_ne_nil _
    · rw [Bool.not_eq_true] at hemp
      rw [hemp]
      simp only [Bool.false_and, Bool.false_eq_true, reduceIte]
      simpa [List.isEmpty_iff] using hemp

lemma closeBufferAt_buffers_of_not_rec (s : MWState) (i : Nat)
    (hrec : s.recoveryEnabled = false) (hi : i < s.buffers.length) :
    (closeBufferAt s i).buffers = s.buffers.eraseIdx i := by
  unfold closeBufferAt
  rw [List.getElem?_eq_getElem hi]
  dsimp only
  rw [hrec]
  simp only [Bool.and_false, Bool.false_eq_true, reduceIte]

lemma closeSecondPass_recovery :
    ∀ (k : Nat) (s : MWState),
      (closeSecondPass s k).recoveryEnabled = s.recoveryEnabled := by
  intro k
  induction k with
  | zero => intro s; rfl
  | succ j ih =>
    intro s
    unfold closeSecondPass
    rw [ih, closeBufferAt_recovery]

lemma closeSecondPass_ne_nil :
    ∀ (k : Nat) (s : MWState), s.recoveryEnabled = true →
      s.buffers ≠ [] → (closeSecondPass s k).buffers ≠ [] := by
  intro k
  induction k with
  | zero => intro s _ hne; exact hne
  | succ j ih =>
    intro s hrec hne
    unfold closeSecondPass
    exact ih _ (by rw [closeBufferAt_recovery]; exact hrec)
      (closeBufferAt_ne_nil s j hrec hne)

lemma closeSecondPass_empty :
    ∀ (k : Nat) (s : MWState), s.recoveryEnabled = false →
      s.buffers.length = k → (closeSecondPass s k).buffers = [] := by
  intro k
  induction k with
  | zero =>
    intro s _ hlen
    exact List.length_eq_zero.mp hlen
  | succ j ih =>
    intro s hrec hlen
    unfold closeSecondPass
    have hj : j < s.buffers.length := by omega
    apply ih
    · rw [closeBufferAt_recovery]
      exact hrec
    · rw [closeBufferAt_buffers_of_not_rec s j hrec hj,
        List.length_eraseIdx_of_lt hj]
      omega

lemma ne_nil_of_obs_eq {s1 s2 : MWState} (h : obs s1 = obs s2)
    (h2 : s2.buffers ≠ []) : s1.buffers ≠ [] := by
  intro hc
  apply h2
  have hl := length_of_obs_eq h
  rw [hc] at hl
  exact List.length_eq_zero.mp hl.symm

/-- C9: whenever the recovery connection is active, no user close
operation leaves the buffer sequence empty (closing the last buffer
creates a fresh untitled one), while the terminal window close, which
disables recovery, force-closes every buffer after a successful checking
pass. -/
theorem buffers_never_left_empty (env : Env) (s : MWState)
    (hrec : s.recoveryEnabled = true) (hne : s.buffers ≠ []) :
    (∀ i, (closeFile env s i).buffers ≠ [])
  ∧ (closeAllFiles env s false).buffers ≠ []
  ∧ (newFile s).buffers ≠ []
  ∧ ((closeEvent env s).fst = true → (closeEvent env s).snd.buffers = []) := by
  refine ⟨?_, ?_, newFile_ne_nil s, ?_⟩
  · intro i
    unfold closeFile
    by_cases hinit : isInInitialState s
    · rw [if_pos hinit]
      exact hne
    · rw [if_neg hinit]
      cases hget : s.buffers[i]? with
      | none => exact hne
      | some b =>
        dsimp only
        have hlen : i < s.buffers.length := (List.getElem?_eq_some.mp hget).1
        have hsw := switchToIndex_buffers s i
        have hswr := switchToIndex_recovery s i
        by_cases hsp : b.is_save_point
        · rw [if_pos hsp]
          exact closeBufferAt_ne_nil s i hrec hne
        · rw [if_neg hsp]
          cases hrep : env.saveReply i with
          | cancel =>
            dsimp only
            rw [hsw]
            exact hne
          | discard =>
            dsimp only
            apply closeBufferAt_ne_nil
            · rw [hswr]; exact hrec
            · rw [hsw]; exact hne
          | save =>
            dsimp only
            have hf := saveFileAt_frame env (switchToIndex s i) i
            have hrecr : (saveFileAt env (switchToIndex s i) i
                ).snd.recoveryEnabled = true := by
              rw [hf.2.1, hswr]; exact hrec
            have hner : (saveFileAt env (switchToIndex s i) i
                ).snd.buffers ≠ [] := by
              apply ne_nil_of_obs_eq hf.1
              rw [hsw]; exact hne
            by_cases hr : (saveFileAt env (switchToIndex s i) i).fst
            · rw [if_pos hr]
              exact closeBufferAt_ne_nil _ i hrecr hner
            · rw [if_neg hr]
              exact hner
  · unfold closeAllFiles
    simp only [Bool.not_false, reduceIte]
    have hf := checkFrom_frame env (s.buffers.length - 0) s 0
      s.buffers.length
    have hobs0 : obs (checkBuffersBeforeClose env s 0
        s.buffers.length).snd = obs s := by
      rw [checkBuffersBeforeClose_def]
      exact hf.1
    by_cases hr : (checkBuffersBeforeClose env s 0 s.buffers.length).fst
    · rw [hr]
      simp only [Bool.not_true, Bool.false_eq_true, reduceIte]
      apply closeSecondPass_ne_nil
      · rw [switchToIndex_recovery, checkBuffersBeforeClose_def, hf.2.1]
        exact hrec
      · rw [switchToIndex_buffers]
        exact ne_nil_of_obs_eq hobs0 hne
    · rw [Bool.not_eq_true] at hr
      rw [hr]
      simp only [Bool.not_false, reduceIte]
      exact ne_nil_of_obs_eq hobs0 hne
  · intro hacc
    unfold closeEvent at hacc ⊢
    simp only [] at hacc ⊢
    by_cases hr : (checkBuffersBeforeClose env s 0 s.buffers.length).fst
    · rw [hr] at hacc ⊢
      simp only [Bool.not_true, Bool.false_eq_true, reduceIte] at hacc ⊢
      unfold closeAllFiles
      simp only [Bool.not_true, Bool.false_eq_true, reduceIte]
      apply closeSecondPass_empty
      · rw [switchToIndex_recovery]
      · rfl
    · rw [Bool.not_eq_true] at hr
      rw [hr] at hacc
      simp at hacc

/-- Witness for the C9 theorem: two dirty buffers, every prompt answers
Discard; single close and close-all leave a non-empty sequence, the
window close empties it. -/
theorem buffers_never_left_empty_witness :
    (closeFile envDiscard stTwo 0).buffers ≠ [] ∧
      (closeAllFiles envDiscard stTwo false).buffers ≠ [] ∧
      (newFile stTwo).buffers ≠ [] ∧
      (closeEvent envDiscard stTwo).snd.buffers = [] := by
  have w := buffers_never_left_empty envDiscard stTwo rfl (by decide)
  exact ⟨w.1 0, w.2.1, w.2.2.1, w.2.2.2 (by decide)⟩

lemma findByPath_of_filter_single (p : String) :
    ∀ (l : List Buffer) (o : Buffer),
      l.filter (fun b => b.filePath = some p) = [o] →
      findByPath p l = some o := by
  intro l
  induction l with
  | nil =>
    intro o h
    simp at h
  | cons x t ih =>
    intro o h
    by_cases hx : x.filePath = some p
    · rw [List.filter_cons_of_pos (by simp [hx])] at h
      obtain ⟨rfl, _⟩ : x = o ∧ t.filter (fun b => b.filePath = some p) = [] := by
        simpa using h
      unfold findByPath
      rw [if_pos hx]
    · rw [List.filter_cons_of_neg (by simp [hx])] at h
      unfold findByPath
      rw [if_neg hx]
      exact ih o h

lemma not_id_mem_eraseIdx :
    ∀ (l : List Buffer) (k : Nat) (o : Buffer),
      (l.map Buffer.id).Nodup → l[k]? = some o →
      ∀ x ∈ l.eraseIdx k, x.id ≠ o.id := by
  intro l
  induction l with
  | nil =>
    intro k o _ h
    simp at h
  | cons y t ih =>
    intro k o hnd hget x hx
    cases k with
    | zero =>
      obtain rfl : y = o := by simpa using hget
      rw [List.eraseIdx_cons_zero] at hx
      intro hxy
      exact (List.nodup_cons.mp hnd).1 (hxy ▸ List.mem_map_of_mem _ hx)
    | succ j =>
      simp only [List.getElem?_cons_succ] at hget
      rw [List.eraseIdx_cons_succ] at hx
      rcases List.mem_cons.mp hx with rfl | hxt
      · intro hxy
        have ho : o ∈ t := List.getElem?_mem hget
        exact (List.nodup_cons.mp hnd).1 (hxy ▸ List.mem_map_of_mem _ ho)
      · exact ih j o (List.nodup_cons.mp hnd).2 hget x hxt

lemma mem_eraseIdx_of_ne {α : Type} :
    ∀ (l : List α) (j k : Nat) (a : α),
      l[j]? = some a → j ≠ k → a ∈ l.eraseIdx k := by
  intro l
  induction l with
  | nil =>
    intro j k a h
    simp at h
  | cons y t ih =>
    intro j k a hget hjk
    cases j with
    | zero =>
      obtain rfl : y = a := by simpa using hget
      cases k with
      | zero => exact absurd rfl hjk
      | succ m =>
        rw [List.eraseIdx_cons_succ]
        exact List.mem_cons_self _ _
    | succ i =>
      simp only [List.getElem?_cons_succ] at hget
      cases k with
      | zero =>
        rw [List.eraseIdx_cons_zero]
        exact List.getElem?_mem hget
      | succ m =>
        rw [List.eraseIdx_cons_succ]
        exact List.mem_cons_of_mem _ (ih i m a hget (by omega))

lemma mem_set_cases {α : Type} :
    ∀ (l : List α) (i : Nat) (a x : α), x ∈ l.set i a → x = a ∨ x ∈ l := by
  intro l
  induction l with
  | nil =>
    intro i a x h
    simp at h
  | cons y t ih =>
    intro i a x h
    cases i with
    | zero =>
      rw [List.set_cons_zero] at h
      rcases List.mem_cons.mp h with rfl | hxt
      · exact Or.inl rfl
      · exact Or.inr (List.mem_cons_of_mem _ hxt)
    | succ j =>
      rw [List.set_cons_succ] at h
      rcases List.mem_cons.mp h with rfl | hxt
      · exact Or.inr (List.mem_cons_self _ _)
      · rcases ih j a x hxt with h1 | h2
        · exact Or.inl h1
        · exact Or.inr (List.mem_cons_of_mem _ h2)

/-- C7: renaming the current file-backed buffer to a path already open
as a distinct buffer: on success the other buffer under that path is
closed, leaving exactly one buffer (the renamed one) with the new path;
on a failed rename nothing changes and the other buffer stays open. -/
theorem rename_collision_closes_other (env : Env) (s : MWState)
    (c o : Buffer) (p : String)
    (hc : s.buffers[s.current]? = some c) (hcf : c.isFile = true)
    (hp : env.renameFileName = p) (hpne : p ≠ "")
    (hfil : s.buffers.filter (fun b => b.filePath = some p) = [o])
    (hoc : o.id ≠ c.id) (hnd : (s.buffers.map Buffer.id).Nodup) :
    (env.writeOk p = true →
        (∀ x ∈ (renameFile env s).buffers, x.id ≠ o.id)
      ∧ (∃ x ∈ (renameFile env s).buffers,
            x.id = c.id ∧ x.filePath = some p)
      ∧ (∀ x ∈ (renameFile env s).buffers,
            x.filePath = some p → x.id = c.id))
  ∧ (env.writeOk p = false → renameFile env s = s) := by
  have hfind : getBufferByFilePath s p = some o :=
    findByPath_of_filter_single p s.buffers o hfil
  have hcur : s.current < s.buffers.length := (List.getElem?_eq_some.mp hc).1
  constructor
  · intro hw
    have hren : renameFile env s =
        closeBufferById (setBufferAt s s.current
          { c with filePath := some p, is_save_point := true }) o.id := by
      unfold renameFile
      rw [hc]
      dsimp only
      rw [hp, if_neg hpne]
      rw [show getBufferByFilePath s p = some o from hfind]
      unfold renameBufferAt saveBufferAsAt
      rw [hc]
      dsimp only
      rw [hw]
      simp only [reduceIte]
    set c1 : Buffer := { c with filePath := some p, is_save_point := true }
      with hc1
    set sR : MWState := setBufferAt s s.current c1 with hsR
    have hids : sR.buffers.map Buffer.id = s.buffers.map Buffer.id := by
      rw [hsR]
      unfold setBufferAt
      exact map_set_same Buffer.id s.buffers s.current c c1 hc rfl
    have hndR : (sR.buffers.map Buffer.id).Nodup := by
      rw [hids]
      exact hnd
    have homem : o ∈ s.buffers := by
      have : o ∈ s.buffers.filter (fun b => b.filePath = some p) := by
        rw [hfil]
        exact List.mem_cons_self o []
      exact (List.mem_filter.mp this).1
    have hoR : o ∈ sR.buffers := by
      obtain ⟨iO, hiO1, hiO2⟩ := findBufferIndex_nodup s.buffers o homem hnd
      have hiOne : iO ≠ s.current := by
        intro hcontra
        rw [hcontra, hc] at hiO2
        have hco : c = o := by simpa using hiO2
        exact hoc (congrArg Buffer.id hco.symm)
      have : sR.buffers[iO]? = some o := by
        rw [hsR]
        unfold setBufferAt
        dsimp only
        rw [List.getElem?_set_ne (Ne.symm hiOne)]
        exact hiO2
      exact List.getElem?_mem this
    obtain ⟨k, hk1, hk2⟩ := findBufferIndex_nodup sR.buffers o hoR hndR
    have hcR : sR.buffers[s.current]? = some c1 := by
      rw [hsR]
      unfold setBufferAt
      dsimp only
      exact List.getElem?_set_self (by simpa using hcur)
    have hkne : k ≠ s.current := by
      intro hcontra
      rw [hcontra, hcR] at hk2
      have h1 : c1 = o := by simpa using hk2
      apply hoc
      rw [← h1]
    have hc1mem : c1 ∈ sR.buffers.eraseIdx k :=
      mem_eraseIdx_of_ne sR.buffers s.current k c1 hcR
        (fun h => hkne h.symm)
    have hne' : sR.buffers.eraseIdx k ≠ [] := by
      intro hcontra
      rw [hcontra] at hc1mem
      simp at hc1mem
    have hemp : (sR.buffers.eraseIdx k).isEmpty = false := by
      cases hh : (sR.buffers.eraseIdx k).isEmpty with
      | false => rfl
      | true => exact absurd (List.isEmpty_iff.mp hh) hne'
    have hclose : (renameFile env s).buffers = sR.buffers.eraseIdx k := by
      rw [hren]
      unfold closeBufferById
      rw [hk1]
      dsimp only
      unfold closeBufferAt
      rw [hk2]
      dsimp only
      rw [hemp]
      simp only [Bool.false_and, Bool.false_eq_true, reduceIte]
    refine ⟨?_, ?_, ?_⟩
    · intro x hx
      rw [hclose] at hx
      exact not_id_mem_eraseIdx sR.buffers k o hndR hk2 x hx
    · refine ⟨c1, ?_, rfl, rfl⟩
      rw [hclose]
      exact hc1mem
    · intro x hx hxp
      rw [hclose] at hx
      have hxR : x ∈ sR.buffers := List.mem_of_mem_eraseIdx hx
      have hxs := mem_set_cases s.buffers s.current c1 x
        (by rw [hsR] at hxR; exact hxR)
      rcases hxs with rfl | hxs
      · rfl
      · exfalso
        have : x ∈ s.buffers.filter (fun b => b.filePath = some p) :=
          List.mem_filter.mpr ⟨hxs, by simp [hxp]⟩
        rw [hfil] at this
        have hxo : x = o := by simpa using this
        exact not_id_mem_eraseIdx sR.buffers k o hndR hk2 x hx
          (congrArg Buffer.id hxo)
  · intro hw
    unfold renameFile
    rw [hc]
    dsimp only
    rw [hp, if_neg hpne]
    rw [show getBufferByFilePath s p = some o from hfind]
    unfold renameBufferAt saveBufferAsAt
    rw [hc]
    dsimp only
    rw [hw]
    simp only [Bool.false_eq_true, reduceIte]

/-- Witness for the C7 theorem: rename a.txt onto the open b.txt, once
with a succeeding write and once with a failing one. -/
theorem rename_collision_closes_other_witness :
    ((∀ x ∈ (renameFile envRenameB stTwo).buffers, x.id ≠ bufB.id)
      ∧ (∃ x ∈ (renameFile envRenameB stTwo).buffers,
            x.id = bufA.id ∧ x.filePath = some "b.txt")
      ∧ (∀ x ∈ (renameFile envRenameB stTwo).buffers,
            x.filePath = some "b.txt" → x.id = bufA.id))
  ∧ renameFile envRenameBFail stTwo = stTwo := by
  have w1 := rename_collision_closes_other envRenameB stTwo bufA bufB
    "b.txt" (by decide) (by decide) rfl (by decide) (by decide) (by decide)
    (by decide)
  have w2 := rename_collision_closes_other envRenameBFail stTwo bufA bufB
    "b.txt" (by decide) (by decide) rfl (by decide) (by decide) (by decide)
    (by decide)
  exact ⟨w1.1 rfl, w2.2 rfl⟩

lemma switchToBufferId_buffers (s : MWState) (bid : Nat) :
    (switchToBufferId s bid).buffers = s.buffers := by
  unfold switchToBufferId
  split <;> rfl

lemma closeBufferAt_zero_cons (s : MWState) (b : Buffer)
    (t : List Buffer) (hb : s.buffers = b :: t) (ht : t ≠ []) :
    (closeBufferAt s 0).buffers = t := by
  unfold closeBufferAt
  rw [show s.buffers[0]? = some b from by
    rw [hb]
    exact List.getElem?_cons_zero]
  dsimp only
  rw [hb, List.eraseIdx_cons_zero]
  rw [show t.isEmpty = false from by
    cases hh : t.isEmpty with
    | false => rfl
    | true => exact absurd (List.isEmpty_iff.mp hh) ht]
  simp only [Bool.false_and, Bool.false_eq_true, reduceIte]

lemma openLoop_append (env : Env) :
    ∀ (names : List String) (s : MWState) (mr0 : Option Nat),
      ∃ new, (openLoop env s names mr0).fst.buffers = s.buffers ++ new ∧
        ∀ nb ∈ new, s.nextId ≤ nb.id := by
  intro names
  induction names with
  | nil =>
    intro s mr0
    exact ⟨[], by simp [openLoop], by simp⟩
  | cons p rest ih =>
    intro s mr0
    cases hf : getBufferByFilePath s p with
    | some b =>
      have heq : openLoop env s (p :: rest) mr0 =
          openLoop env s rest (some b.id) := by
        simp only [openLoop, hf]
      rw [heq]
      exact ih s (some b.id)
    | none =>
      by_cases hex : env.fileExists p
      · have heq : openLoop env s (p :: rest) mr0 =
            openLoop env (createBufferFromFile env s p).fst rest
              (some (createBufferFromFile env s p).snd) := by
          simp only [openLoop, hf, hex, if_true]
        rw [heq]
        obtain ⟨new', h1, h2⟩ := ih (createBufferFromFile env s p).fst
          (some (createBufferFromFile env s p).snd)
        refine ⟨createdBuffer env s p :: new', ?_, ?_⟩
        · rw [h1]
          show s.buffers ++ [createdBuffer env s p] ++ new' =
            s.buffers ++ (createdBuffer env s p :: new')
          simp
        · intro nb hnb
          rcases List.mem_cons.mp hnb with rfl | hmem
          · exact le_refl _
          · have := h2 nb hmem
            have hnid : (createBufferFromFile env s p).fst.nextId =
                s.nextId + 1 := rfl
            omega
      · by_cases hcc : env.createConfirm p
        · have heq : openLoop env s (p :: rest) mr0 =
              openLoop env (createBufferFromFile env s p).fst rest
                (some (createBufferFromFile env s p).snd) := by
            simp only [openLoop, hf, hex, hcc, if_true, Bool.false_eq_true, reduceIte]
          rw [heq]
          obtain ⟨new', h1, h2⟩ := ih (createBufferFromFile env s p).fst
            (some (createBufferFromFile env s p).snd)
          refine ⟨createdBuffer env s p :: new', ?_, ?_⟩
          · rw [h1]
            show s.buffers ++ [createdBuffer env s p] ++ new' =
              s.buffers ++ (createdBuffer env s p :: new')
            simp
          · intro nb hnb
            rcases List.mem_cons.mp hnb with rfl | hmem
            · exact le_refl _
            · have := h2 nb hmem
              have hnid : (createBufferFromFile env s p).fst.nextId =
                  s.nextId + 1 := rfl
              omega
        · have heq : openLoop env s (p :: rest) mr0 =
              openLoop env s rest mr0 := by
            simp only [openLoop, hf, hex, hcc, Bool.false_eq_true, reduceIte]
          rw [heq]
          exact ih s mr0

lemma openLoop_some (env : Env) :
    ∀ (names : List String) (s : MWState) (x : Nat),
      (openLoop env s names (some x)).snd ≠ none := by
  intro names
  induction names with
  | nil =>
    intro s x h
    simp [openLoop] at h
  | cons p rest ih =>
    intro s x
    cases hf : getBufferByFilePath s p with
    | some b =>
      have heq : openLoop env s (p :: rest) (some x) =
          openLoop env s rest (some b.id) := by
        simp only [openLoop, hf]
      rw [heq]
      exact ih s b.id
    | none =>
      by_cases hex : env.fileExists p
      · have heq : openLoop env s (p :: rest) (some x) =
            openLoop env (createBufferFromFile env s p).fst rest
              (some (createBufferFromFile env s p).snd) := by
          simp only [openLoop, hf, hex, if_true]
        rw [heq]
        exact ih _ _
      · by_cases hcc : env.createConfirm p
        · have heq : openLoop env s (p :: rest) (some x) =
              openLoop env (createBufferFromFile env s p).fst rest
                (some (createBufferFromFile env s p).snd) := by
            simp only [openLoop, hf, hex, hcc, if_true, Bool.false_eq_true, reduceIte]
          rw [heq]
          exact ih _ _
        · have heq : openLoop env s (p :: rest) (some x) =
              openLoop env s rest (some x) := by
            simp only [openLoop, hf, hex, hcc, Bool.false_eq_true, reduceIte]
          rw [heq]
          exact ih s x

lemma openLoop_none (env : Env) :
    ∀ (names : List String) (s : MWState) (mr0 : Option Nat),
      (openLoop env s names mr0).snd = none →
      (openLoop env s names mr0).fst = s ∧ mr0 = none := by
  intro names
  induction names with
  | nil =>
    intro s mr0 h
    exact ⟨rfl, h⟩
  | cons p rest ih =>
    intro s mr0 h
    cases hf : getBufferByFilePath s p with
    | some b =>
      have heq : openLoop env s (p :: rest) mr0 =
          openLoop env s rest (some b.id) := by
        simp only [openLoop, hf]
      rw [heq] at h
      exact absurd h (openLoop_some env rest s b.id)
    | none =>
      by_cases hex : env.fileExists p
      · have heq : openLoop env s (p :: rest) mr0 =
            openLoop env (createBufferFromFile env s p).fst rest
              (some (createBufferFromFile env s p).snd) := by
          simp only [openLoop, hf, hex, if_true]
        rw [heq] at h
        exact absurd h (openLoop_some env rest _ _)
      · by_cases hcc : env.createConfirm p
        · have heq : openLoop env s (p :: rest) mr0 =
              openLoop env (createBufferFromFile env s p).fst rest
                (some (createBufferFromFile env s p).snd) := by
            simp only [openLoop, hf, hex, hcc, if_true, Bool.false_eq_true, reduceIte]
          rw [heq] at h
          exact absurd h (openLoop_some env rest _ _)
        · have heq : openLoop env s (p :: rest) mr0 =
              openLoop env s rest mr0 := by
            simp only [openLoop, hf, hex, hcc, Bool.false_eq_true, reduceIte]
          rw [heq] at h ⊢
          exact ih s mr0 h

lemma openLoop_pathless (env : Env) :
    ∀ (names : List String) (s : MWState),
      (∀ b ∈ s.buffers, b.filePath = none) →
      (openLoop env s names none).snd ≠ none →
      ∃ new, new ≠ [] ∧
        (openLoop env s names none).fst.buffers = s.buffers ++ new ∧
        ∀ nb ∈ new, s.nextId ≤ nb.id := by
  intro names
  induction names with
  | nil =>
    intro s _ h
    exact absurd rfl h
  | cons p rest ih =>
    intro s hpre h
    cases hf : getBufferByFilePath s p with
    | some b =>
      exfalso
      obtain ⟨hmem, hpath⟩ := findByPath_mem p s.buffers b hf
      rw [hpre b hmem] at hpath
      exact Option.noConfusion hpath
    | none =>
      by_cases hex : env.fileExists p
      · have heq : openLoop env s (p :: rest) none =
            openLoop env (createBufferFromFile env s p).fst rest
              (some (createBufferFromFile env s p).snd) := by
          simp only [openLoop, hf, hex, if_true]
        rw [heq]
        obtain ⟨new', h1, h2⟩ := openLoop_append env rest
          (createBufferFromFile env s p).fst
          (some (createBufferFromFile env s p).snd)
        refine ⟨createdBuffer env s p :: new', by simp, ?_, ?_⟩
        · rw [h1]
          show s.buffers ++ [createdBuffer env s p] ++ new' =
            s.buffers ++ (createdBuffer env s p :: new')
          simp
        · intro nb hnb
          rcases List.mem_cons.mp hnb with rfl | hmem
          · exact le_refl _
          · have := h2 nb hmem
            have hnid : (createBufferFromFile env s p).fst.nextId =
                s.nextId + 1 := rfl
            omega
      · by_cases hcc : env.createConfirm p
        · have heq : openLoop env s (p :: rest) none =
              openLoop env (createBufferFromFile env s p).fst rest
                (some (createBufferFromFile env s p).snd) := by
            simp only [openLoop, hf, hex, hcc, if_true, Bool.false_eq_true, reduceIte]
          rw [heq]
          obtain ⟨new', h1, h2⟩ := openLoop_append env rest
            (createBufferFromFile env s p).fst
            (some (createBufferFromFile env s p).snd)
          refine ⟨createdBuffer env s p :: new', by simp, ?_, ?_⟩
          · rw [h1]
            show s.buffers ++ [createdBuffer env s p] ++ new' =
              s.buffers ++ (createdBuffer env s p :: new')
            simp
          · intro nb hnb
            rcases List.mem_cons.mp hnb with rfl | hmem
            · exact le_refl _
            · have := h2 nb hmem
              have hnid : (createBufferFromFile env s p).fst.nextId =
                  s.nextId + 1 := rfl
              omega
        · have heq : openLoop env s (p :: rest) none =
              openLoop env s rest none := by
            simp only [openLoop, hf, hex, hcc, Bool.false_eq_true, reduceIte]
          rw [heq] at h ⊢
          exact ih s hpre h

/-- C10: invoking openFileList on the initial-state window (a single
untitled buffer at save point): if some file in the list was opened or
already open, the untitled placeholder at index 0 is closed afterwards
(its identity is gone from the open buffers); if nothing was opened, the
state is left exactly as it was, placeholder included. -/
theorem open_initial_placeholder (env : Env) (s : MWState)
    (fileNames : List String) (b0 : Buffer)
    (hbuf : s.buffers = [b0]) (hnf : b0.filePath = none)
    (hsp : b0.is_save_point = true) (hid : b0.id < s.nextId) :
    ((openLoop env s fileNames none).snd = none →
      openFileList env s fileNames = s)
  ∧ (∀ bid, (openLoop env s fileNames none).snd = some bid →
      b0.id ∉ (openFileList env s fileNames).buffers.map Buffer.id) := by
  constructor
  · intro h
    by_cases hfn : fileNames = []
    · unfold openFileList
      rw [if_pos hfn]
    · unfold openFileList
      rw [if_neg hfn]
      simp only []
      rw [h]
      exact (openLoop_none env fileNames s none h).1
  · intro bid h
    have hfn : fileNames ≠ [] := by
      intro hcontra
      rw [hcontra] at h
      simp [openLoop] at h
    have hinit : isInInitialState s = true := by
      unfold isInInitialState
      rw [hbuf]
      simp [Buffer.isFile, hnf, hsp]
    have hpre : ∀ b ∈ s.buffers, b.filePath = none := by
      rw [hbuf]
      intro b hb
      obtain rfl : b = b0 := by simpa using hb
      exact hnf
    obtain ⟨new, hnewne, hnew1, hnew2⟩ :=
      openLoop_pathless env fileNames s hpre (by rw [h]; simp)
    unfold openFileList
    rw [if_neg hfn]
    simp only []
    rw [h]
    dsimp only
    rw [hinit]
    simp only [reduceIte]
    have hs2b : (switchToBufferId (openLoop env s fileNames none).fst
        bid).buffers = b0 :: new := by
      rw [switchToBufferId_buffers, hnew1, hbuf]
      rfl
    have hlen2 : (switchToBufferId (openLoop env s fileNames none).fst
        bid).buffers.length ≠ 1 := by
      rw [hs2b]
      simp only [List.length_cons]
      intro hcontra
      have hn0 : new.length = 0 := by omega
      exact hnewne (List.length_eq_zero.mp hn0)
    unfold closeFile
    rw [show isInInitialState (switchToBufferId
        (openLoop env s fileNames none).fst bid) = false from by
      unfold isInInitialState
      rw [if_neg hlen2]]
    simp only [Bool.false_eq_true, reduceIte]
    rw [show (switchToBufferId (openLoop env s fileNames none).fst
        bid).buffers[0]? = some b0 from by
      rw [hs2b]
      exact List.getElem?_cons_zero]
    dsimp only
    rw [hsp]
    simp only [reduceIte]
    rw [closeBufferAt_zero_cons _ b0 new hs2b hnewne]
    intro hmem
    obtain ⟨x, hx, hxid⟩ := List.mem_map.mp hmem
    have hxge := hnew2 x hx
    omega

/-- Witness for the C10 theorem: opening c.txt from the startup window
closes the placeholder; declining to create a missing c.txt leaves the
startup window untouched. -/
theorem open_initial_placeholder_witness :
    openFileList envNoFile stInitial ["c.txt"] = stInitial ∧
      bufUntitled.id ∉
        (openFileList envCancel stInitial ["c.txt"]).buffers.map
          Buffer.id := by
  have w1 := open_initial_placeholder envNoFile stInitial ["c.txt"]
    bufUntitled rfl rfl rfl (by decide)
  have w2 := open_initial_placeholder envCancel stInitial ["c.txt"]
    bufUntitled rfl rfl rfl (by decide)
  exact ⟨w1.1 (by decide), w2.2 3 (by decide)⟩

end NotepadNext
